import Mathlib

/-!
Shallow embedding of the animation core of `multiple_lights.cpp`
(kinetic-sculpture OpenGL demo): the sculpture field transform math,
the point-light orbit rig, the pause/animation clock, and the FPS camera.
Floating-point arithmetic is modelled over the reals.
-/

namespace ML

open Real

noncomputable section

/-- 3D vector, modelling `glm::vec3`. -/
structure Vec3 where
  x : ℝ
  y : ℝ
  z : ℝ

/-- `glm::dot(v, v)`: squared Euclidean length. -/
def Vec3.dot2 (v : Vec3) : ℝ := v.x * v.x + v.y * v.y + v.z * v.z

/-- `glm::normalize`: divide every component by the Euclidean length. -/
def Vec3.normalize (v : Vec3) : Vec3 :=
  let n := Real.sqrt v.dot2
  ⟨v.x / n, v.y / n, v.z / n⟩

/-- `glm::radians`: degrees to radians. -/
def radians (deg : ℝ) : ℝ := deg * π / 180

/-- `glm::clamp(x, lo, hi)` = `min(max(x, lo), hi)`. -/
def gclamp (x lo hi : ℝ) : ℝ := min (max x lo) hi

/-! ## Sculpture field (source lines 446–465)

`const int GRID = 10; const float SPACING = 2.2f;`
`float off = (GRID - 1) * SPACING * 0.5f;` and per cell
`gx = col * SPACING - off`, `gz = row * SPACING - off`,
`d = sqrtf(gx*gx + gz*gz)`,
`gy = 2*sinf(d*0.55 - animTime*2) + 0.8*sinf(gx*0.5 + animTime*1.3)
    + 0.8*cosf(gz*0.5 - animTime*1.1)`,
`spin = animTime*50 + d*12`, `s = 0.88 + 0.12*sinf(animTime*3 + d)`. -/

/-- `const int GRID = 10`. -/
def GRID : ℕ := 10

/-- `const float SPACING = 2.2f`. -/
def SPACING : ℝ := 2.2

/-- `float off = (GRID - 1) * SPACING * 0.5f`. -/
def off : ℝ := ((GRID : ℝ) - 1) * SPACING * 0.5

/-- `float gx = col * SPACING - off`. -/
def gx (col : ℕ) : ℝ := (col : ℝ) * SPACING - off

/-- `float gz = row * SPACING - off`. -/
def gz (row : ℕ) : ℝ := (row : ℝ) * SPACING - off

/-- `float d = sqrtf(gx * gx + gz * gz)`. -/
def dDist (row col : ℕ) : ℝ := Real.sqrt (gx col * gx col + gz row * gz row)

/-- `float gy = 2.0f * sinf(d * 0.55f - animTime * 2.f)
    + 0.8f * sinf(gx * 0.5f + animTime * 1.3f)
    + 0.8f * cosf(gz * 0.5f - animTime * 1.1f)`. -/
def gy (row col : ℕ) (t : ℝ) : ℝ :=
  2.0 * Real.sin (dDist row col * 0.55 - t * 2) +
  0.8 * Real.sin (gx col * 0.5 + t * 1.3) +
  0.8 * Real.cos (gz row * 0.5 - t * 1.1)

/-- `float spin = animTime * 50.f + d * 12.f` (degrees). -/
def spin (row col : ℕ) (t : ℝ) : ℝ := t * 50 + dDist row col * 12

/-- `float s = 0.88f + 0.12f * sinf(animTime * 3.f + d)`. -/
def sscale (row col : ℕ) (t : ℝ) : ℝ := 0.88 + 0.12 * Real.sin (t * 3 + dDist row col)

/-! ## Point-light rig (source lines 370–372 and 395–401)

`const float OR[4] = { 8, 11, 9, 6.5f };`
`const float OY[4] = { 3, 1.5f, 5, 2.5f };`
`const float SP[4] = { 0.7f, -0.5f, 1.1f, -0.9f };`
and per frame, per light `i`:
`float a = SP[i] * animTime + i * glm::two_pi<float>() / 4.f;`
`ptPos[i] = { OR[i]*cosf(a), OY[i] + 1.5f*sinf(animTime*.7f + i), OR[i]*sinf(a) };` -/

/-- Orbit radii `OR[4] = { 8, 11, 9, 6.5f }`. -/
def orbR : Fin 4 → ℝ := ![8, 11, 9, 6.5]

/-- Base heights `OY[4] = { 3, 1.5f, 5, 2.5f }`. -/
def orbY : Fin 4 → ℝ := ![3, 1.5, 5, 2.5]

/-- Angular speeds `SP[4] = { 0.7f, -0.5f, 1.1f, -0.9f }`. -/
def orbSP : Fin 4 → ℝ := ![0.7, -0.5, 1.1, -0.9]

/-- `float a = SP[i] * animTime + i * glm::two_pi<float>() / 4.f`. -/
def lightAngle (i : Fin 4) (t : ℝ) : ℝ := orbSP i * t + (i : ℕ) * (2 * π) / 4

/-- `ptPos[i] = { OR[i] * cosf(a), OY[i] + 1.5f * sinf(animTime * .7f + i),
    OR[i] * sinf(a) }`. -/
def lightPos (i : Fin 4) (t : ℝ) : Vec3 :=
  ⟨orbR i * Real.cos (lightAngle i t),
   orbY i + 1.5 * Real.sin (t * 0.7 + (i : ℕ)),
   orbR i * Real.sin (lightAngle i t)⟩

/-! ## Claims about the sculpture field and light rig -/

/-- C1: for every grid cell (row, col) and time t, the world position is
x = col*2.2 - offset, z = row*2.2 - offset with offset = (10-1)*2.2/2, and the
height is y = 2 sin(0.55 d - 2 t) + 0.8 sin(0.5 x + 1.3 t) + 0.8 cos(0.5 z - 1.1 t)
with d = sqrt(x^2 + z^2). -/
theorem sculpture_cell_position_height (row col : ℕ) (t : ℝ) :
    off = ((10 : ℝ) - 1) * 2.2 / 2 ∧
    gx col = (col : ℝ) * 2.2 - off ∧
    gz row = (row : ℝ) * 2.2 - off ∧
    dDist row col = Real.sqrt ((gx col) ^ 2 + (gz row) ^ 2) ∧
    gy row col t =
      2 * Real.sin (0.55 * dDist row col - 2 * t) +
      0.8 * Real.sin (0.5 * gx col + 1.3 * t) +
      0.8 * Real.cos (0.5 * gz row - 1.1 * t) := by
  refine ⟨?_, ?_, ?_, ?_, ?_⟩
  · unfold off GRID SPACING; norm_num
  · unfold gx SPACING; ring
  · unfold gz SPACING; ring
  · unfold dDist; ring_nf
  · unfold gy; ring_nf

/-- C2: for every light index i and time t, the light position is
(radius[i] cos a, baseHeight[i] + 1.5 sin(0.7 t + i), radius[i] sin a) with
a = speed[i] t + i (2π/4), where radius = (8,11,9,6.5), baseHeight = (3,1.5,5,2.5)
and speed = (0.7,-0.5,1.1,-0.9); a pure function of t and i. -/
theorem light_position_formula (i : Fin 4) (t : ℝ) :
    lightPos i t =
      ⟨orbR i * Real.cos (orbSP i * t + (i : ℕ) * (2 * π / 4)),
       orbY i + 1.5 * Real.sin (0.7 * t + (i : ℕ)),
       orbR i * Real.sin (orbSP i * t + (i : ℕ) * (2 * π / 4))⟩ ∧
    orbR = ![8, 11, 9, 6.5] ∧ orbY = ![3, 1.5, 5, 2.5] ∧
    orbSP = ![0.7, -0.5, 1.1, -0.9] := by
  refine ⟨?_, rfl, rfl, rfl⟩
  unfold lightPos lightAngle
  have ha : orbSP i * t + (i : ℕ) * (2 * π) / 4
      = orbSP i * t + (i : ℕ) * (2 * π / 4) := by ring
  have hb : t * 0.7 + (i : ℕ) = 0.7 * t + (i : ℕ) := by ring
  rw [ha, hb]

/-- C5: for every light index i and time t, the horizontal components satisfy
x² + z² = radius[i]², i.e. each light stays on a circle of its fixed radius. -/
theorem light_on_circle (i : Fin 4) (t : ℝ) :
    (lightPos i t).x ^ 2 + (lightPos i t).z ^ 2 = (orbR i) ^ 2 := by
  show (orbR i * Real.cos (lightAngle i t)) ^ 2
      + (orbR i * Real.sin (lightAngle i t)) ^ 2 = (orbR i) ^ 2
  have h := Real.sin_sq_add_cos_sq (lightAngle i t)
  nlinarith [h]

/-! ## Animation clock (source lines 234–236, 261–264, 381–383)

Per frame:
`float now = glfwGetTime(); dt = now - lastFrame; lastFrame = now;`
`if (!paused) animTime += dt;`
then `processInput` runs the SPACE edge detection:
`if (cur == GLFW_PRESS && prev == GLFW_RELEASE) paused = !paused; prev = cur;` -/

/-- Clock state of the render loop: `lastFrame`, `animTime`, `paused`. -/
structure ClockState where
  lastFrame : ℝ
  animTime : ℝ
  paused : Bool

/-- One clock update at wall-clock time `now` (lines 381–383):
`dt = now - lastFrame; lastFrame = now; if (!paused) animTime += dt;`. -/
def frameClockStep (s : ClockState) (now : ℝ) : ClockState :=
  ⟨now, if s.paused then s.animTime else s.animTime + (now - s.lastFrame), s.paused⟩

/-- Run the clock update over a sequence of frame times. -/
def runFrames (s : ClockState) (ts : List ℝ) : ClockState :=
  ts.foldl frameClockStep s

/-- Helper: with non-decreasing frame times, `animTime` never decreases. -/
theorem runFrames_animTime_le (ts : List ℝ) : ∀ s : ClockState,
    List.Chain (fun a b => a ≤ b) s.lastFrame ts →
    s.animTime ≤ (runFrames s ts).animTime := by
  induction ts with
  | nil => intro s _; exact le_refl _
  | cons u us ih =>
    intro s h
    rcases h with _ | ⟨hle, hch⟩
    have h2 : (frameClockStep s u).animTime ≤ (runFrames (frameClockStep s u) us).animTime :=
      ih (frameClockStep s u) hch
    refine le_trans ?_ h2
    by_cases hp : s.paused
    · simp [frameClockStep, hp]
    · simp only [frameClockStep, hp, if_false, Bool.false_eq_true]
      linarith

/-- Helper: while paused the clock never accumulates and stays paused. -/
theorem runFrames_paused_frozen (ts : List ℝ) : ∀ s : ClockState,
    s.paused = true →
    (runFrames s ts).animTime = s.animTime ∧ (runFrames s ts).paused = true := by
  induction ts with
  | nil => intro s h; exact ⟨rfl, h⟩
  | cons u us ih =>
    intro s h
    have hstep : frameClockStep s u = ⟨u, s.animTime, s.paused⟩ := by
      simp [frameClockStep, h]
    have h2 := ih (frameClockStep s u) (by rw [hstep]; exact h)
    refine ⟨?_, h2.2⟩
    calc (runFrames s (u :: us)).animTime
        = (runFrames (frameClockStep s u) us).animTime := rfl
      _ = (frameClockStep s u).animTime := h2.1
      _ = s.animTime := by rw [hstep]

/-- C4: across any sequence of frame steps with non-decreasing wall-clock times,
`animTime` is monotonically non-decreasing while RUNNING; while PAUSED `animTime`
stays exactly constant regardless of elapsed wall time, and the delta-time
bookkeeping (`lastFrame = now`) continues each frame. -/
theorem animTime_monotone_and_frozen :
    (∀ (s : ClockState) (ts : List ℝ),
      List.Chain (fun a b => a ≤ b) s.lastFrame ts →
      s.animTime ≤ (runFrames s ts).animTime) ∧
    (∀ (s : ClockState) (ts : List ℝ), s.paused = true →
      (runFrames s ts).animTime = s.animTime) ∧
    (∀ (s : ClockState) (now : ℝ), (frameClockStep s now).lastFrame = now) :=
  ⟨fun s ts h => runFrames_animTime_le ts s h,
   fun s ts h => (runFrames_paused_frozen ts s h).1,
   fun _ _ => rfl⟩

/-- Witness for C4 at concrete inputs. -/
theorem animTime_monotone_and_frozen_witness :
    ((1 : ℝ) ≤ (runFrames ⟨0, 1, false⟩ [1, 2]).animTime) ∧
    (runFrames ⟨0, 5, true⟩ [100]).animTime = 5 :=
  ⟨animTime_monotone_and_frozen.1 ⟨0, 1, false⟩ [1, 2]
      (List.Chain.cons (by norm_num) (List.Chain.cons (by norm_num) List.Chain.nil)),
   animTime_monotone_and_frozen.2.1 ⟨0, 5, true⟩ [100] rfl⟩

/-- Full per-frame simulation state: the clock plus the SPACE edge-detection
state `prev` (line 261, `static int prev = GLFW_RELEASE`). -/
structure SimState where
  lastFrame : ℝ
  animTime : ℝ
  paused : Bool
  prevKey : Bool

/-- One full frame at wall-clock time `now` with current SPACE key state `key`
(`true` = pressed): the clock update of lines 381–383 followed by the pause
toggle of lines 261–264. -/
def fullFrame (s : SimState) (now : ℝ) (key : Bool) : SimState :=
  let a := if s.paused then s.animTime else s.animTime + (now - s.lastFrame)
  let p := if key && !s.prevKey then !s.paused else s.paused
  ⟨now, a, p, key⟩

/-- C7: starting RUNNING, a press (held one extra frame), release, press,
release sequence returns the clock to RUNNING; the final `animTime` is
`A + (t1 - t0) + (t5 - t4)`, unaffected by the wall time `t4 - t1` of the
paused interval; and a key held across frames (prev already pressed) never
toggles the pause state again. -/
theorem pause_toggle_twice (t0 t1 t2 t3 t4 t5 A : ℝ) :
    (fullFrame (fullFrame (fullFrame (fullFrame (fullFrame
        ⟨t0, A, false, false⟩ t1 true) t2 true) t3 false) t4 true) t5 false).paused
      = false ∧
    (fullFrame (fullFrame (fullFrame (fullFrame (fullFrame
        ⟨t0, A, false, false⟩ t1 true) t2 true) t3 false) t4 true) t5 false).animTime
      = A + (t1 - t0) + (t5 - t4) ∧
    (∀ (L B : ℝ) (p : Bool) (n : ℝ), (fullFrame ⟨L, B, p, true⟩ n true).paused = p) := by
  refine ⟨rfl, ?_, ?_⟩
  · show A + (t1 - t0) + (t5 - t4) = A + (t1 - t0) + (t5 - t4)
    rfl
  · intro L B p n
    simp [fullFrame]

/-! ## Camera (source lines 204–251)

`struct Camera { pos = {0,8,20}; front = {0,0,-1}; up = {0,1,0};
yaw = -90, pitch = 0, zoom = 45; ... }` with `look` (lines 217–225) and the
movement helpers, plus `mouse_callback` (lines 240–246) with the
`firstMouse` latch. -/

/-- FPS camera state. -/
structure Camera where
  pos : Vec3
  front : Vec3
  up : Vec3
  yaw : ℝ
  pitch : ℝ
  zoom : ℝ

/-- Initial camera (lines 205–208). -/
def initCam : Camera := ⟨⟨0, 8, 20⟩, ⟨0, 0, -1⟩, ⟨0, 1, 0⟩, -90, 0, 45⟩

/-- The spherical-to-Cartesian direction built in `Camera::look`
(lines 221–224), before `glm::normalize`. -/
def dirVec (ya pi2 : ℝ) : Vec3 :=
  ⟨Real.cos (radians ya) * Real.cos (radians pi2),
   Real.sin (radians pi2),
   Real.sin (radians ya) * Real.cos (radians pi2)⟩

/-- `Camera::look(dx, dy)` (lines 217–225): `yaw += dx*0.1;`
`pitch = glm::clamp(pitch + dy*0.1, -89, 89);` `front = normalize(...)`. -/
def camLook (c : Camera) (dx dy : ℝ) : Camera :=
  let ya := c.yaw + dx * 0.1
  let pi2 := gclamp (c.pitch + dy * 0.1) (-89) 89
  { c with yaw := ya, pitch := pi2, front := (dirVec ya pi2).normalize }

/-- `pos + v * k` componentwise. -/
def Vec3.addScaled (p v : Vec3) (k : ℝ) : Vec3 :=
  ⟨p.x + v.x * k, p.y + v.y * k, p.z + v.z * k⟩

/-- `glm::cross`. -/
def cross (a b : Vec3) : Vec3 :=
  ⟨a.y * b.z - a.z * b.y, a.z * b.x - a.x * b.z, a.x * b.y - a.y * b.x⟩

/-- `Camera::moveForward` (line 212): `pos += front * (5 * dt)`. -/
def moveForward (c : Camera) (dt2 : ℝ) : Camera :=
  { c with pos := c.pos.addScaled c.front (5 * dt2) }

/-- `Camera::moveBackward` (line 213): `pos -= front * (5 * dt)`. -/
def moveBackward (c : Camera) (dt2 : ℝ) : Camera :=
  { c with pos := c.pos.addScaled c.front (-(5 * dt2)) }

/-- `Camera::moveLeft` (line 214): `pos -= normalize(cross(front, up)) * (5*dt)`. -/
def moveLeft (c : Camera) (dt2 : ℝ) : Camera :=
  { c with pos := c.pos.addScaled (cross c.front c.up).normalize (-(5 * dt2)) }

/-- `Camera::moveRight` (line 215): `pos += normalize(cross(front, up)) * (5*dt)`. -/
def moveRight (c : Camera) (dt2 : ℝ) : Camera :=
  { c with pos := c.pos.addScaled (cross c.front c.up).normalize (5 * dt2) }

/-- Helper: the spherical direction already has squared length 1. -/
theorem dirVec_dot2 (ya pi2 : ℝ) : (dirVec ya pi2).dot2 = 1 := by
  unfold dirVec Vec3.dot2
  dsimp only
  have h1 := Real.sin_sq_add_cos_sq (radians ya)
  have h2 := Real.sin_sq_add_cos_sq (radians pi2)
  nlinarith [h1, h2]

/-- Helper: normalizing the spherical direction is the identity. -/
theorem dirVec_normalize (ya pi2 : ℝ) : (dirVec ya pi2).normalize = dirVec ya pi2 := by
  unfold Vec3.normalize
  rw [dirVec_dot2, Real.sqrt_one]
  simp

/-- C9: the camera forward vector always has unit length — it starts as a unit
vector, every `look` update renormalizes it to unit length, and the four
movement operations leave it unchanged. -/
theorem camera_front_unit :
    Real.sqrt initCam.front.dot2 = 1 ∧
    (∀ (c : Camera) (dx dy : ℝ), Real.sqrt (camLook c dx dy).front.dot2 = 1) ∧
    (∀ (c : Camera) (d2 : ℝ),
      (moveForward c d2).front = c.front ∧ (moveBackward c d2).front = c.front ∧
      (moveLeft c d2).front = c.front ∧ (moveRight c d2).front = c.front) := by
  refine ⟨?_, ?_, fun c d2 => ⟨rfl, rfl, rfl, rfl⟩⟩
  · have : initCam.front.dot2 = 1 := by norm_num [initCam, Vec3.dot2]
    rw [this, Real.sqrt_one]
  · intro c dx dy
    show Real.sqrt ((dirVec _ _).normalize).dot2 = 1
    rw [dirVec_normalize, dirVec_dot2, Real.sqrt_one]

/-- Apply a sequence of mouse-look deltas. -/
def applyLooks (c : Camera) (ds : List (ℝ × ℝ)) : Camera :=
  ds.foldl (fun a p => camLook a p.1 p.2) c

/-- Helper: `glm::clamp(x, -89, 89)` lands in the closed interval. -/
theorem gclamp_pitch_mem (x : ℝ) : -89 ≤ gclamp x (-89) 89 ∧ gclamp x (-89) 89 ≤ 89 :=
  ⟨le_min (le_max_right x (-89)) (by norm_num), min_le_right _ _⟩

/-- Helper: pitch stays in [-89, 89] under any sequence of look updates. -/
theorem applyLooks_pitch_mem (ds : List (ℝ × ℝ)) : ∀ c : Camera,
    -89 ≤ c.pitch → c.pitch ≤ 89 →
    -89 ≤ (applyLooks c ds).pitch ∧ (applyLooks c ds).pitch ≤ 89 := by
  induction ds with
  | nil => intro c h1 h2; exact ⟨h1, h2⟩
  | cons d ds ih =>
    intro c _ _
    have hc := gclamp_pitch_mem (c.pitch + d.2 * 0.1)
    exact ih (camLook c d.1 d.2) hc.1 hc.2

/-- C6 counterexample: the pitch is NOT kept strictly inside (-89, 89): a
single large upward mouse delta from the initial camera drives the pitch to
exactly 89 degrees (glm::clamp is inclusive). -/
theorem pitch_reaches_89 :
    (camLook initCam 0 1000).pitch = 89 ∧ ¬ ((camLook initCam 0 1000).pitch < 89) := by
  have h : (camLook initCam 0 1000).pitch = 89 := by
    show gclamp (initCam.pitch + 1000 * 0.1) (-89) 89 = 89
    have h1 : initCam.pitch + 1000 * 0.1 = 100 := by norm_num [initCam]
    rw [h1]
    unfold gclamp
    rw [max_eq_left (by norm_num), min_eq_right (by norm_num)]
  exact ⟨h, by rw [h]; exact lt_irrefl 89⟩

/-- C6 (amended): after any sequence of mouse-motion updates starting from a
camera whose pitch lies in the closed interval [-89, 89] (as the initial
camera's does), the pitch stays in [-89, 89]; in particular repeated upward
mouse motion never drives the pitch past 89 degrees. -/
theorem pitch_always_clamped (c : Camera) (ds : List (ℝ × ℝ))
    (h1 : -89 ≤ c.pitch) (h2 : c.pitch ≤ 89) :
    -89 ≤ (applyLooks c ds).pitch ∧ (applyLooks c ds).pitch ≤ 89 :=
  applyLooks_pitch_mem ds c h1 h2

/-- Witness for C6 (amended) at a concrete input. -/
theorem pitch_always_clamped_witness :
    -89 ≤ (applyLooks initCam [(0, 1000), (0, 1000)]).pitch ∧
    (applyLooks initCam [(0, 1000), (0, 1000)]).pitch ≤ 89 :=
  pitch_always_clamped initCam [(0, 1000), (0, 1000)]
    (by norm_num [initCam]) (by norm_num [initCam])

/-- Mouse-callback state (lines 232–233): `lastX`, `lastY`, `firstMouse`. -/
structure MouseState where
  lastX : ℝ
  lastY : ℝ
  firstMouse : Bool

/-- Initial mouse state: `lastX = SCR_W/2 = 640`, `lastY = SCR_H/2 = 360`,
`firstMouse = true`. -/
def initMouse : MouseState := ⟨640, 360, true⟩

/-- `mouse_callback` (lines 240–246): on the first event it records the cursor
position before computing the delta; then it calls `cam.look(x - lastX,
lastY - y)` and records the position. -/
def mouseEvent (ms : MouseState) (c : Camera) (x y : ℝ) : MouseState × Camera :=
  let ms2 := if ms.firstMouse then (⟨x, y, false⟩ : MouseState) else ms
  (⟨x, y, ms2.firstMouse⟩, camLook c (x - ms2.lastX) (ms2.lastY - y))

/-- C10: with `firstMouse` set and a camera whose `front` is consistent with
its yaw/pitch (pitch in [-89, 89]), the first mouse event leaves the camera
unchanged — it only records the cursor position and clears `firstMouse` —
while any subsequent event rotates yaw by 0.1 times the delta from the
previously recorded position. -/
theorem first_mouse_no_jump (ms : MouseState) (c : Camera) (x y : ℝ)
    (hf : ms.firstMouse = true)
    (h1 : -89 ≤ c.pitch) (h2 : c.pitch ≤ 89)
    (hfr : c.front = (dirVec c.yaw c.pitch).normalize) :
    (mouseEvent ms c x y).2 = c ∧
    (mouseEvent ms c x y).1 = ⟨x, y, false⟩ ∧
    (∀ (lX lY : ℝ) (c2 : Camera) (x2 y2 : ℝ),
      (mouseEvent ⟨lX, lY, false⟩ c2 x2 y2).2.yaw = c2.yaw + (x2 - lX) * 0.1) := by
  refine ⟨?_, ?_, ?_⟩
  · show camLook c (x - (if ms.firstMouse then (⟨x, y, false⟩ : MouseState) else ms).lastX)
        ((if ms.firstMouse then (⟨x, y, false⟩ : MouseState) else ms).lastY - y) = c
    rw [hf]
    show camLook c (x - x) (y - y) = c
    unfold camLook
    dsimp only
    have hyaw : c.yaw + (x - x) * 0.1 = c.yaw := by ring
    have hp0 : c.pitch + (y - y) * 0.1 = c.pitch := by ring
    have hpitch : gclamp (c.pitch + (y - y) * 0.1) (-89) 89 = c.pitch := by
      rw [hp0]
      unfold gclamp
      rw [max_eq_left h1, min_eq_left h2]
    rw [hyaw, hpitch, ← hfr]
  · simp [mouseEvent, hf]
  · intro lX lY c2 x2 y2
    rfl

/-- Helper: the initial camera front agrees with its yaw/pitch angles. -/
theorem initCam_front_consistent :
    initCam.front = (dirVec initCam.yaw initCam.pitch).normalize := by
  rw [dirVec_normalize]
  show (⟨0, 0, -1⟩ : Vec3) = dirVec (-90) 0
  have h90 : radians (-90) = -(π / 2) := by unfold radians; ring
  have h0 : radians 0 = 0 := by unfold radians; ring
  unfold dirVec
  rw [h90, h0]
  simp

/-- Witness for C10 at a concrete input. -/
theorem first_mouse_no_jump_witness :
    (mouseEvent initMouse initCam 100 200).2 = initCam ∧
    (mouseEvent initMouse initCam 100 200).1 = ⟨100, 200, false⟩ :=
  ⟨(first_mouse_no_jump initMouse initCam 100 200 rfl (by norm_num [initCam])
      (by norm_num [initCam]) initCam_front_consistent).1,
   (first_mouse_no_jump initMouse initCam 100 200 rfl (by norm_num [initCam])
      (by norm_num [initCam]) initCam_front_consistent).2.1⟩

/-! ## Model transform of a sculpture cell (source lines 459–465)

`glm::mat4 model(1.f);`
`model = glm::translate(model, { gx, gy, gz });`
`model = glm::rotate(model, glm::radians(spin), { 0,1,0 });`
`model = glm::scale(model, { s,s,s });`
glm's `translate`/`rotate`/`scale` post-multiply: `glm::translate(m, v) = m * T(v)`
and likewise for the others. Matrices are written in mathematical row/column
convention (entry (r, c) = row r, column c). -/

/-- The homogeneous translation matrix `T(v)`. -/
def translateM (v : Vec3) : Matrix (Fin 4) (Fin 4) ℝ :=
  Matrix.of ![![1, 0, 0, v.x], ![0, 1, 0, v.y], ![0, 0, 1, v.z], ![0, 0, 0, 1]]

/-- The rotation about the Y axis by angle θ (radians), the matrix
`glm::rotate` builds for axis (0, 1, 0). -/
def rotYM (θ : ℝ) : Matrix (Fin 4) (Fin 4) ℝ :=
  Matrix.of ![![Real.cos θ, 0, Real.sin θ, 0], ![0, 1, 0, 0],
              ![-Real.sin θ, 0, Real.cos θ, 0], ![0, 0, 0, 1]]

/-- The uniform scale matrix `S(s)`. -/
def scaleM (s : ℝ) : Matrix (Fin 4) (Fin 4) ℝ :=
  Matrix.of ![![s, 0, 0, 0], ![0, s, 0, 0], ![0, 0, s, 0], ![0, 0, 0, 1]]

/-- `glm::translate(m, v) = m * T(v)`. -/
def glmTranslate (m : Matrix (Fin 4) (Fin 4) ℝ) (v : Vec3) : Matrix (Fin 4) (Fin 4) ℝ :=
  m * translateM v

/-- `glm::rotate(m, θ, {0,1,0}) = m * R_y(θ)`. -/
def glmRotateY (m : Matrix (Fin 4) (Fin 4) ℝ) (θ : ℝ) : Matrix (Fin 4) (Fin 4) ℝ :=
  m * rotYM θ

/-- `glm::scale(m, {s,s,s}) = m * S(s)`. -/
def glmScale (m : Matrix (Fin 4) (Fin 4) ℝ) (s : ℝ) : Matrix (Fin 4) (Fin 4) ℝ :=
  m * scaleM s

/-- The model matrix built for cell (row, col) at time t (lines 462–465). -/
def sculptureModel (row col : ℕ) (t : ℝ) : Matrix (Fin 4) (Fin 4) ℝ :=
  glmScale (glmRotateY (glmTranslate 1 ⟨gx col, gy row col t, gz row⟩)
    (radians (spin row col t))) (sscale row col t)

/-- C8: for every cell and time, the spin is 50 t + 12 d degrees, the uniform
scale is 0.88 + 0.12 sin(3 t + d), and the model matrix is composed as
translate, then rotate about Y, then scale: T * R_y * S. -/
theorem sculpture_transform_composition (row col : ℕ) (t : ℝ) :
    sculptureModel row col t =
      translateM ⟨gx col, gy row col t, gz row⟩ *
        rotYM (radians (spin row col t)) * scaleM (sscale row col t) ∧
    spin row col t = 50 * t + 12 * dDist row col ∧
    sscale row col t = 0.88 + 0.12 * Real.sin (3 * t + dDist row col) := by
  refine ⟨?_, by unfold spin; ring, by unfold sscale; ring_nf⟩
  unfold sculptureModel glmScale glmRotateY glmTranslate
  rw [one_mul]

/-! ## The concrete scenario at t = 0, cell (0, 0) -/

/-- Helper: the squared corner distance. -/
theorem dDist00_eq : dDist 0 0 = Real.sqrt 196.02 := by
  have hgx : gx 0 = -9.9 := by unfold gx off GRID SPACING; norm_num
  have hgz : gz 0 = -9.9 := by unfold gz off GRID SPACING; norm_num
  unfold dDist
  rw [hgx, hgz]
  norm_num

/-- Helper: lower bound on the corner distance. -/
theorem dDist00_gt : (13.9987 : ℝ) < dDist 0 0 := by
  rw [dDist00_eq]
  rw [show ((13.9987 : ℝ) < Real.sqrt 196.02) = ((13.9987 : ℝ) ^ 2 < 196.02)
    from propext (Real.lt_sqrt (by norm_num))]
  norm_num

/-- C3 counterexample: at t = 0, cell (0, 0), the radial distance computed by
the code is sqrt(9.9² + 9.9²) = sqrt(196.02) > 13.9987, so it differs from the
claimed value 13.9986 by more than the claimed 1e-4 tolerance. -/
theorem d_value_mismatch : 1e-4 < |dDist 0 0 - 13.9986| := by
  have h := dDist00_gt
  rw [abs_of_pos (by linarith)]
  linarith

/-- C3 (amended): at t = 0, cell (0, 0): offset = 9.9, x = -9.9, z = -9.9,
d = sqrt(196.02) = 14.0007... (within 1e-4 of 14.0007), and the height equals
2 sin(0.55 d) + 0.8 sin(0.5·(-9.9)) + 0.8 cos(-0.5·(-9.9)). -/
theorem scenario_t0_cell00 :
    off = 9.9 ∧ gx 0 = -9.9 ∧ gz 0 = -9.9 ∧
    |dDist 0 0 - 14.0007| < 1e-4 ∧
    gy 0 0 0 = 2 * Real.sin (0.55 * dDist 0 0) +
      0.8 * Real.sin (0.5 * (-9.9)) + 0.8 * Real.cos (-0.5 * (-9.9)) := by
  have hoff : off = 9.9 := by unfold off GRID SPACING; norm_num
  have hgx : gx 0 = -9.9 := by unfold gx off GRID SPACING; norm_num
  have hgz : gz 0 = -9.9 := by unfold gz off GRID SPACING; norm_num
  refine ⟨hoff, hgx, hgz, ?_, ?_⟩
  · rw [dDist00_eq]
    have hlo : (14.0006 : ℝ) < Real.sqrt 196.02 := by
      rw [show ((14.0006 : ℝ) < Real.sqrt 196.02) = ((14.0006 : ℝ) ^ 2 < 196.02)
        from propext (Real.lt_sqrt (by norm_num))]
      norm_num
    have hhi : Real.sqrt 196.02 < 14.0008 := by
      rw [show (Real.sqrt 196.02 < (14.0008 : ℝ)) = ((196.02 : ℝ) < 14.0008 ^ 2)
        from propext (Real.sqrt_lt' (by norm_num))]
      norm_num
    rw [abs_lt]
    constructor <;> linarith
  · unfold gy
    rw [hgx, hgz]
    rw [show dDist 0 0 * 0.55 - (0 : ℝ) * 2 = 0.55 * dDist 0 0 by ring]
    rw [show (-9.9 : ℝ) * 0.5 + 0 * 1.3 = 0.5 * (-9.9) by norm_num]
    rw [show (-9.9 : ℝ) * 0.5 - 0 * 1.1 = -(-0.5 * (-9.9)) by norm_num]
    rw [Real.cos_neg]
    norm_num

end

end ML
